import Mathlib

/-!
Verification of the KEGGBLAST pipeline against its specification.

The Python sources are shallowly embedded: every Python string operation used
by the embedded functions is modelled by a structural function over the
character list underlying a Lean string, so that all definitions evaluate by
kernel reduction.  Text is split on the newline character (the embedded
programs never feed carriage returns to splitlines).  Network effects are
modelled by passing the response, or an oracle from request to response, as an
explicit argument; raised exceptions become the error branch of Except.
-/

namespace KeggBlast

/-! ## String primitives (Python semantics over List Char) -/

/-- Unpack a string into its character list. -/
def pyChars (s : String) : List Char := s.data

/-- Pack a character list into a string. -/
def ofChars (l : List Char) : String := ⟨l⟩

/-- The whitespace test used by Python str.strip and str.split. -/
def isPyWs (c : Char) : Bool := c.isWhitespace

/-- Remove whitespace from the front of a character list. -/
def lstripL (l : List Char) : List Char := l.dropWhile isPyWs

/-- Remove whitespace from the back of a character list. -/
def rstripL (l : List Char) : List Char := (l.reverse.dropWhile isPyWs).reverse

/-- Python str.strip on a character list. -/
def pyStripL (l : List Char) : List Char := rstripL (lstripL l)

/-- Python str.strip. -/
def pyTrim (s : String) : String := ofChars (pyStripL (pyChars s))

/-- Python str.lower (ASCII case folding, as used by the sources). -/
def pyLower (s : String) : String := ofChars ((pyChars s).map Char.toLower)

/-- Python str.upper (ASCII case folding, as used by the sources). -/
def pyUpper (s : String) : String := ofChars ((pyChars s).map Char.toUpper)

/-- Python str.startswith. -/
def pyStartsWith (s pre : String) : Bool := (pyChars pre).isPrefixOf (pyChars s)

/-- Python len on a string. -/
def pyLen (s : String) : Nat := (pyChars s).length

/-- Python slice s[n:]. -/
def pyDrop (s : String) (n : Nat) : String := ofChars ((pyChars s).drop n)

/-- Split a character list at every character satisfying p (separators are
dropped, empty fields kept), matching Python str.split with a one-character
separator. -/
def splitPred (p : Char → Bool) : List Char → List (List Char)
  | [] => [[]]
  | c :: rest =>
    if p c then [] :: splitPred p rest
    else
      match splitPred p rest with
      | [] => [[c]]
      | h :: t => (c :: h) :: t

/-- Python s.split(sep) for a one-character separator sep. -/
def pySplitChar (s : String) (sep : Char) : List String :=
  (splitPred (fun c => c == sep) (pyChars s)).map ofChars

/-- Python str.splitlines restricted to newline separators, as produced by the
HTTP bodies the sources consume.  (Python drops a final empty line where this
keeps it; the embedded consumers treat an empty line as a no-op or block end,
which agrees with the Python loop simply ending.) -/
def splitLines (s : String) : List String := pySplitChar s '\n'

/-- Python s.split() with no separator: split on whitespace runs, dropping
empty fields. -/
def pySplitWs (s : String) : List String :=
  ((splitPred isPyWs (pyChars s)).filter (fun l => l ≠ [])).map ofChars

/-- Substring test on character lists (Python sub in s). -/
def containsSeq (pat : List Char) : List Char → Bool
  | [] => pat.isEmpty
  | c :: rest => pat.isPrefixOf (c :: rest) || containsSeq pat rest

/-- Python sub in s for strings. -/
def strContains (s pat : String) : Bool := containsSeq (pyChars pat) (pyChars s)

/-- Python c in s for a single character. -/
def containsChar (s : String) (c : Char) : Bool := (pyChars s).contains c

/-- Python sep.join(parts). -/
def joinWith (sep : String) (parts : List String) : String :=
  ofChars (List.flatten (List.intersperse (pyChars sep) (parts.map pyChars)))

/-- Python "".join(parts). -/
def strJoin (parts : List String) : String :=
  ofChars (List.flatten (parts.map pyChars))

/-- Decimal digit value of a character, if any. -/
def digitVal (c : Char) : Option Nat :=
  if c.isDigit then some (c.toNat - 48) else none

/-- Accumulating decimal parser over characters; none on the empty digit
sequence or a non-digit. -/
def parseNatChars : List Char → Option Nat → Option Nat
  | [], acc => acc
  | c :: rest, acc =>
    match digitVal c, acc with
    | some d, some a => parseNatChars rest (some (a * 10 + d))
    | some d, none => parseNatChars rest (some d)
    | none, _ => none

/-- Python int(s) on an already stripped string: optional sign followed by
decimal digits; failure models the raised ValueError. -/
def parseIntStr (s : String) : Option Int :=
  match pyChars s with
  | '-' :: rest => (parseNatChars rest none).map (fun n => -(n : Int))
  | '+' :: rest => (parseNatChars rest none).map (fun n => (n : Int))
  | l => (parseNatChars l none).map (fun n => (n : Int))

/-! ## Job Client: blast_ncbi.run_ncbi_blast_all

The submit / poll / fetch state machine of run_ncbi_blast_all, for one
sequence.  The submission response body and the successive polling response
bodies are explicit inputs. -/

/-- Terminal states of the polling loop. -/
inductive PollOutcome where
  | ready
  | failed
  | unknown
deriving DecidableEq, Repr

/-- The polling loop of run_ncbi_blast_all over a list of poll response
bodies: scan each body for the literal markers Status=READY, Status=FAILED,
Status=UNKNOWN in that order; no match sleeps 30 and polls again.  Returns the
number of polls performed, the list of sleep durations taken inside the loop,
and the terminal outcome (none when the responses were exhausted while still
in the polling state). -/
def pollLoop : List String → Nat × List Nat × Option PollOutcome
  | [] => (0, [], none)
  | t :: rest =>
    if strContains t "Status=READY" then (1, [], some .ready)
    else if strContains t "Status=FAILED" then (1, [], some .failed)
    else if strContains t "Status=UNKNOWN" then (1, [], some .unknown)
    else
      let p := pollLoop rest
      (p.1 + 1, 30 :: p.2.1, p.2.2)

/-- line.split("=")[1].strip(), the extraction applied by the submission
scanner to lines matched for RID and RTOE markers.  The index-1 access is only
reached on lines containing an equals sign, so the default is never used. -/
def extractEq (line : String) : String :=
  pyTrim ((pySplitChar line '=').getD 1 "")

/-- The RID / RTOE scanning loop over the submission response lines, with the
running rid (initially None) and rtoe (initially 15).  A line containing
RTOE = parses the extracted value with int(), whose failure raises (error). -/
def scanRidRtoe : List String → Option String → Int → Except String (Option String × Int)
  | [], rid, rtoe => .ok (rid, rtoe)
  | l :: rest, rid, rtoe =>
    let rid2 := if strContains l "RID =" then some (extractEq l) else rid
    if strContains l "RTOE =" then
      match parseIntStr (extractEq l) with
      | none => .error "invalid RTOE integer"
      | some v => scanRidRtoe rest rid2 v
    else scanRidRtoe rest rid2 rtoe

/-- Processing of the submission response body by run_ncbi_blast_all: scan for
RID and RTOE, raise if the rid is missing or empty (Python if not rid), and
otherwise sleep rtoe + 5 before the first poll.  Returns the rid and that
initial sleep duration. -/
def submissionOutcome (body : String) : Except String (String × Int) :=
  match scanRidRtoe (splitLines body) none 15 with
  | .error e => .error e
  | .ok (none, _) => .error "RID not found in response"
  | .ok (some rid, rtoe) =>
    if rid = "" then .error "RID not found in response"
    else .ok (rid, rtoe + 5)

/-- Job-level outcome of one submit / poll / fetch run. -/
inductive JobOutcome where
  | submitFailed (msg : String)
  | exhausted
  | ready
  | jobFailed
  | unknownId
deriving DecidableEq, Repr

/-- Observable trace of one job: the initial sleep after submission, the
number of status polls, the sleeps taken inside the polling loop, the number
of result-fetch requests, and the outcome. -/
structure JobTrace where
  initialSleep : Int
  polls : Nat
  pollSleeps : List Nat
  fetches : Nat
  outcome : JobOutcome
deriving DecidableEq, Repr

/-- One full job of run_ncbi_blast_all: process the submission response, then
poll; a break on Status=READY is followed by exactly one result-fetch request,
while the raised exceptions for FAILED and UNKNOWN are caught by the outer
handler without any fetch.  Submission failure performs no poll. -/
def runJobClient (submitBody : String) (pollBodies : List String) : JobTrace :=
  match submissionOutcome submitBody with
  | .error e => ⟨0, 0, [], 0, .submitFailed e⟩
  | .ok (_, wait) =>
    let p := pollLoop pollBodies
    match p.2.2 with
    | some .ready => ⟨wait, p.1, p.2.1, 1, .ready⟩
    | some .failed => ⟨wait, p.1, p.2.1, 0, .jobFailed⟩
    | some .unknown => ⟨wait, p.1, p.2.1, 0, .unknownId⟩
    | none => ⟨wait, p.1, p.2.1, 0, .exhausted⟩

/-- The fold computing the final rid held by the scanning loop. -/
def ridScan (ls : List String) (r0 : Option String) : Option String :=
  ls.foldl (fun r l => if strContains l "RID =" then some (extractEq l) else r) r0

/-! ## Species cache staleness: keggblast.kegg_utils.is_cache_stale -/

/-- is_cache_stale: file existence is passed as two booleans; the metadata
date, when readable and well formed, is passed as the age in whole days (the
Python .days), otherwise none (the except branch).  interval_days defaults to
7 in the source. -/
def is_cache_stale (csvExists metaExists : Bool) (parsedAgeDays : Option Int)
    (intervalDays : Int) : Bool :=
  if !csvExists || !metaExists then true
  else
    match parsedAgeDays with
    | none => true
    | some age => if age > intervalDays then true else false

/-! ## Entry Fetcher: keggblast.kegg_utils.fetch_kegg_orthology -/

/-- An HTTP response as seen by the fetcher. -/
structure HttpResponse where
  statusCode : Nat
  text : String
deriving DecidableEq, Repr

/-- The Python exception kinds raised by the fetcher. -/
inductive PyError where
  | valueError (msg : String)
  | requestException (msg : String)
deriving DecidableEq, Repr

/-- fetch_kegg_orthology: the network is an explicit argument, none modelling
a requests.RequestException during the GET.  The first component records
whether a network request was issued at all; the second is the returned
content or the raised exception. -/
def fetch_kegg_orthology (koId : String) (net : Option HttpResponse) :
    Bool × Except PyError String :=
  if koId = "" || !(pyStartsWith koId "K") then
    (false, .error (.valueError "KO ID must start with K"))
  else
    match net with
    | none => (true, .error (.requestException "Network error while fetching KO"))
    | some r =>
      if r.statusCode ≠ 200 then
        (true, .error (.valueError "KO not found: HTTP error"))
      else
        let content := pyTrim r.text
        if content = "" || strContains (pyLower content) "not found"
            || strContains (pyLower content) "<error>" then
          (true, .error (.valueError "KO entry invalid or not found in response body"))
        else if !(strContains content "ENTRY") then
          (true, .error (.valueError "KO entry returned but missing expected content"))
        else (true, .ok content)

/-! ## Gene Table Extractor: keggblast.kegg_utils.parse_gene_table -/

/-- One row of the gene table DataFrame: the Species ID, Genes and Number of
Genes columns. -/
structure GeneRow where
  speciesId : String
  genes : String
  numGenes : Nat
deriving DecidableEq, Repr

/-- Twelve spaces, the continuation indent of KEGG blocks. -/
def twelveSpaces : String := "            "

/-- The line-selection loop of parse_gene_table: a GENES header line or a
12-space continuation line inside the block is kept after slicing off its
first 12 characters; the first other line inside the block breaks the loop;
lines before the block are skipped. -/
def acceptedGeneLines : List String → Bool → List String
  | [], _ => []
  | l :: rest, inG =>
    if pyStartsWith l "GENES" then pyDrop l 12 :: acceptedGeneLines rest true
    else if inG && pyStartsWith l twelveSpaces then
      pyDrop l 12 :: acceptedGeneLines rest true
    else if inG then []
    else acceptedGeneLines rest inG

/-- The species code of a kept GENES line: strip the line, take the part
before the first colon, strip again (line.strip().split(":", 1)[0].strip()). -/
def speciesOf (l : String) : String :=
  pyTrim (ofChars ((pyChars (pyTrim l)).takeWhile (fun c => c ≠ ':')))

/-- The genes part of a kept GENES line: the text after the first colon of the
stripped line (line.strip().split(":", 1)[1]). -/
def genesPartOf (l : String) : String :=
  ofChars ((pyChars (pyTrim l)).drop
    (((pyChars (pyTrim l)).takeWhile (fun c => c ≠ ':')).length + 1))

/-- The row built from one kept line containing a colon: the stripped species
code, the space-joined whitespace-split gene tokens, and their count. -/
def geneRowOf (l : String) : GeneRow :=
  ⟨speciesOf l, joinWith " " (pySplitWs (genesPartOf l)), (pySplitWs (genesPartOf l)).length⟩

/-- The row-building body of parse_gene_table for one kept line: a line
containing a colon appends its row; other lines append nothing. -/
def processGeneLine (l : String) : List GeneRow :=
  if containsChar l ':' then [geneRowOf l] else []

/-- parse_gene_table: rows accumulated over the kept lines; the empty table
raises ValueError. -/
def parse_gene_table (entry : String) : Except String (List GeneRow) :=
  let rows := (acceptedGeneLines (splitLines entry) false).flatMap processGeneLine
  if rows.isEmpty then .error "No GENES section found in KO entry"
  else .ok rows

/-! ## Species Resolver: keggblast.kegg_utils.map_species_from_single_input -/

/-- One row of the cached species DataFrame. -/
structure SpeciesRecord where
  taxId : String
  speciesId : String
  speciesName : String
  commonName : String
deriving DecidableEq, Repr

/-- The branch taken by map_species_from_single_input for one console input:
either the direct KEGG ID match (returning the first matching cache row) or
the fall-through into fuzzy matching. -/
inductive ResolveStep where
  | direct (r : SpeciesRecord)
  | fuzzy
deriving DecidableEq, Repr

/-- The input dispatch of map_species_from_single_input: the stripped,
lowered input takes the direct branch only when it has length 3 and occurs
among the lowered species ids; the matching row is found by a scan in cache
order.  Everything else proceeds to the fuzzy-scoring step. -/
def map_species_from_single_input_step (speciesDf : List SpeciesRecord)
    (rawInput : String) : ResolveStep :=
  if pyLen (pyLower (pyTrim rawInput)) == 3
      && (speciesDf.map (fun r => pyLower r.speciesId)).contains (pyLower (pyTrim rawInput)) then
    match speciesDf.find? (fun r => pyLower (pyTrim rawInput) == pyLower r.speciesId) with
    | some r => .direct r
    | none => .fuzzy
  else .fuzzy

/-! ## Sequence Extractor: fasta_tools.extract_sequence -/

/-- The capture loop of extract_sequence: a line starting with the key turns
capturing on and is itself skipped; while capturing, a line not starting with
12 spaces breaks the loop, and any other line contributes its stripped text. -/
def extractLoop (key : String) : List String → Bool → List String
  | [], _ => []
  | l :: rest, capture =>
    if pyStartsWith l key then extractLoop key rest true
    else if capture then
      if !(pyStartsWith l twelveSpaces) then []
      else pyTrim l :: extractLoop key rest true
    else extractLoop key rest false

/-- extract_sequence: ValueError for a key other than AASEQ or NTSEQ,
otherwise the joined upper-cased captured lines, or none when nothing was
captured. -/
def extract_sequence (entryText key : String) : Except String (Option String) :=
  if !(key == "AASEQ" || key == "NTSEQ") then
    .error "Key must be AASEQ or NTSEQ"
  else
    let sl := extractLoop key (splitLines entryText) false
    if sl.isEmpty then .ok none
    else .ok (some (pyUpper (strJoin sl)))

/-! ## Batch Orchestrator: keggblast.run_full.run_full_pipeline_csv

The per-species, per-gene loop of run_full_pipeline_csv.  The match table
rows are explicit inputs, and fetch_gene_entry is an oracle from gene id to
entry text or raised error.  The observable output is the list of FASTA file
names written; a raised error aborts the whole run (there is no handler in
the source), which the error branch models. -/

/-- One row of the match table consumed by the loop: the KEGG Species ID and
the semicolon-joined Genes column. -/
structure CsvRow where
  spId : String
  genesField : String
deriving DecidableEq, Repr

/-- The gene list of a row: row Genes split on semicolons unless it is the
literal none found. -/
def rowGenes (r : CsvRow) : List String :=
  if r.genesField ≠ "none found" then pySplitChar r.genesField ';' else []

/-- The FASTA files written for one fetched gene entry: an amino file when the
requested kind includes amino and AASEQ extracts non-empty, and a gene file
when it includes gene and NTSEQ extracts non-empty. -/
def seqWrites (seqType gene entry : String) : List String :=
  (if seqType == "amino" || seqType == "both" then
    match extract_sequence entry "AASEQ" with
    | .ok (some s) => if s ≠ "" then [gene ++ "_amino.fasta"] else []
    | _ => []
  else []) ++
  (if seqType == "gene" || seqType == "both" then
    match extract_sequence entry "NTSEQ" with
    | .ok (some s) => if s ≠ "" then [gene ++ "_gene.fasta"] else []
    | _ => []
  else [])

/-- The inner gene loop for one species: fetch each gene entry in order; a
raised fetch error propagates, abandoning the remaining genes. -/
def processGenesLoop (fetch : String → Except String String) (seqType spId : String) :
    List String → Except String (List String)
  | [] => .ok []
  | g :: gs =>
    match fetch (spId ++ ":" ++ g) with
    | .error e => .error e
    | .ok entry =>
      match processGenesLoop fetch seqType spId gs with
      | .error e => .error e
      | .ok ws => .ok (seqWrites seqType g entry ++ ws)

/-- The per-species loop of run_full_pipeline_csv over the match table: rows
with no match or no genes are skipped; a raised error in the gene loop
propagates, abandoning the remaining species. -/
def run_full_pipeline_csv (fetch : String → Except String String) (seqType : String) :
    List CsvRow → Except String (List String)
  | [] => .ok []
  | r :: rs =>
    if r.spId == "no match" || (rowGenes r).isEmpty then
      run_full_pipeline_csv fetch seqType rs
    else
      match processGenesLoop fetch seqType r.spId (rowGenes r) with
      | .error e => .error e
      | .ok ws =>
        match run_full_pipeline_csv fetch seqType rs with
        | .error e => .error e
        | .ok ws2 => .ok (ws ++ ws2)

/-! ## FASTA writing and re-reading: fasta_tools.write_fasta_file and
blast_gget.read_fasta_sequence (character-list level) -/

/-- Chunking of the sequence into 70-character lines, fuelled by the sequence
length (the Python loop for i in range(0, len(sequence), 70)). -/
def chunkFuel : Nat → List Char → List (List Char)
  | 0, _ => []
  | _ + 1, [] => []
  | f + 1, l => l.take 70 :: chunkFuel f (l.drop 70)

/-- The 70-character wrapping of write_fasta_file. -/
def wrap70 (l : List Char) : List (List Char) := chunkFuel l.length l

/-- The file content produced by write_fasta_file: a header line prefixed
with the marker, then each chunk on its own line. -/
def writeFastaContent (header sequence : List Char) : List Char :=
  ('>' :: header) ++ '\n' :: List.flatten ((wrap70 sequence).map (fun c => c ++ ['\n']))

/-- write_fasta_file: ValueError on an empty header or sequence, otherwise
the written file content (path handling is not modelled). -/
def write_fasta_file (header sequence : List Char) : Except String (List Char) :=
  if header = [] then .error "FASTA header must be a non-empty string"
  else if sequence = [] then .error "Sequence must be a non-empty string"
  else .ok (writeFastaContent header sequence)

/-- Newline splitting at the character-list level. -/
def splitLinesL (l : List Char) : List (List Char) :=
  splitPred (fun c => c == '\n') l

/-- The per-line treatment of read_fasta_sequence: drop a line starting with
the header marker, keep the stripped text of any other line. -/
def readKeep (l : List Char) : Option (List Char) :=
  if l.head? = some '>' then none else some (pyStripL l)

/-- read_fasta_sequence: join the stripped lines that do not start with the
header marker. -/
def read_fasta_sequence (content : List Char) : List Char :=
  List.flatten ((splitLinesL content).filterMap readKeep)

/-! ## Hit Parser: blast_ncbi.parse_ncbi_blast_text -/

/-- One hit dictionary: each field records whether its key is present; the
evalue value itself may be the Python None (hence the nested Option). -/
structure BlastHitR where
  subject_title : Option String
  bit_score : Option String
  evalue : Option (Option String)
deriving DecidableEq, Repr

/-- Whether the current dictionary is empty (if current: in the source). -/
def hitEmptyB (h : BlastHitR) : Bool :=
  h.subject_title.isNone && h.bit_score.isNone && h.evalue.isNone

/-- The empty current dictionary. -/
def emptyHit : BlastHitR := ⟨none, none, none⟩

/-- The score and evalue extracted from a line containing Score =: split the
line on commas; the bit score is the text after the last equals sign of the
first part, and the evalue is the same for the second part when a comma is
present, otherwise the Python None. -/
def scoreData (line : String) : String × Option String :=
  let parts := pySplitChar line ','
  let score := pyTrim ((pySplitChar (parts.getD 0 "") '=').getLastD "")
  let ev :=
    if parts.length > 1 then
      some (pyTrim ((pySplitChar (parts.getD 1 "") '=').getLastD ""))
    else none
  (score, ev)

/-- The line loop of parse_ncbi_blast_text: a header line flushes the current
dictionary when non-empty and starts a new one holding the stripped title; a
line containing Score = overwrites the score fields of the current
dictionary; the final dictionary is flushed when non-empty. -/
def pnLoop : List String → BlastHitR → List BlastHitR
  | [], cur => if hitEmptyB cur then [] else [cur]
  | l :: rest, cur =>
    if pyStartsWith l ">" then
      (if hitEmptyB cur then [] else [cur]) ++
        pnLoop rest ⟨some (pyTrim (pyDrop l 1)), none, none⟩
    else if strContains l "Score =" then
      pnLoop rest ⟨cur.subject_title, some (scoreData l).1, some (scoreData l).2⟩
    else pnLoop rest cur

/-- parse_ncbi_blast_text. -/
def parse_ncbi_blast_text (text : String) : List BlastHitR :=
  pnLoop (splitLines text) emptyHit

/-- The score-field update applied to the current dictionary by a group of
non-header lines, as a fold. -/
def applyScores (cur : BlastHitR) (body : List String) : BlastHitR :=
  body.foldl (fun c l =>
    if strContains l "Score =" then ⟨c.subject_title, some (scoreData l).1, some (scoreData l).2⟩
    else c) cur

/-- The lines of a group that contain Score =. -/
def scoreLines (ls : List String) : List String :=
  ls.filter (fun l => strContains l "Score =")

/-- The last Score = line of a group, if any. -/
def lastScore (ls : List String) : Option String := (scoreLines ls).getLast?

/-- The hit record the claim ascribes to one header line and its following
non-header lines: title from the header, score fields from the last Score =
line of the group when one exists. -/
def groupHit (h : String) (body : List String) : BlastHitR :=
  match lastScore body with
  | none => ⟨some (pyTrim (pyDrop h 1)), none, none⟩
  | some l => ⟨some (pyTrim (pyDrop h 1)), some (scoreData l).1, some (scoreData l).2⟩

/-- The leading record the claim ascribes to the lines before the first
header: present exactly when a Score = line occurs there, with no title. -/
def leadHits (pre : List String) : List BlastHitR :=
  match lastScore pre with
  | none => []
  | some l => [⟨none, some (scoreData l).1, some (scoreData l).2⟩]

/-! ## Claim C5: cache staleness -/

/-- Claim C5: is_cache_stale returns true when either cache file is missing,
true when the age in days strictly exceeds the interval, and false otherwise;
a cache exactly interval days old is not stale. -/
theorem C5_is_cache_stale (c m : Bool) (age interval : Int) :
    (is_cache_stale false m (some age) interval = true) ∧
    (is_cache_stale c false (some age) interval = true) ∧
    (is_cache_stale true true (some age) interval = decide (age > interval)) ∧
    (is_cache_stale true true (some interval) interval = false) := by
  refine ⟨?_, ?_, ?_, ?_⟩
  · simp [is_cache_stale]
  · cases c <;> simp [is_cache_stale]
  · by_cases h : age > interval <;> simp [is_cache_stale, h]
  · simp [is_cache_stale]

/-! ## Claim C1: the polling loop -/

/-- Claim C1: when the first two poll responses contain none of the three
status markers and the third contains Status=READY, the loop stays in the
polling state through the first two responses, sleeping 30 each time, and the
third response ends the loop with outcome ready and exactly one result-fetch
request. -/
theorem C1_polling_ready (r1 r2 r3 : String)
    (h1r : strContains r1 "Status=READY" = false)
    (h1f : strContains r1 "Status=FAILED" = false)
    (h1u : strContains r1 "Status=UNKNOWN" = false)
    (h2r : strContains r2 "Status=READY" = false)
    (h2f : strContains r2 "Status=FAILED" = false)
    (h2u : strContains r2 "Status=UNKNOWN" = false)
    (h3 : strContains r3 "Status=READY" = true) :
    pollLoop [r1, r2, r3] = (3, [30, 30], some PollOutcome.ready) ∧
    ∀ sub rid w, submissionOutcome sub = Except.ok (rid, w) →
      runJobClient sub [r1, r2, r3] = ⟨w, 3, [30, 30], 1, JobOutcome.ready⟩ := by
  have hp : pollLoop [r1, r2, r3] = (3, [30, 30], some PollOutcome.ready) := by
    simp [pollLoop, h1r, h1f, h1u, h2r, h2f, h2u, h3]
  refine ⟨hp, ?_⟩
  intro sub rid w hsub
  simp [runJobClient, hsub, hp]

/-- Witness for C1 at concrete responses and a concrete submission body. -/
theorem C1_polling_ready_witness :
    pollLoop ["Status=WAITING", "no status yet", "Status=READY"] =
      (3, [30, 30], some PollOutcome.ready) ∧
    runJobClient "RID = ABC123" ["Status=WAITING", "no status yet", "Status=READY"] =
      ⟨20, 3, [30, 30], 1, JobOutcome.ready⟩ := by
  have h := C1_polling_ready "Status=WAITING" "no status yet" "Status=READY"
    (by decide) (by decide) (by decide) (by decide) (by decide) (by decide) (by decide)
  exact ⟨h.1, h.2 "RID = ABC123" "ABC123" 20 rfl⟩

/-! ## Claim C3: per-item failure handling in the batch pipeline -/

/-- Claim C3 (evaluation at the failing input): in run_full_pipeline_csv a
gene-entry fetch error is not caught, so the failure of the first gene of the
first species aborts the whole run, producing no output for the remaining
gene of that species nor for the second species; the same table with a
healthy fetch oracle produces files for every gene of both species. -/
theorem C3_batch_abort_eval :
    run_full_pipeline_csv
        (fun i => if i = "aaa:g1" then Except.error "gene fetch failed"
          else Except.ok "AASEQ       3\n            MKV\nNTSEQ       9\n            atg")
        "both" [⟨"aaa", "g1;g2"⟩, ⟨"bbb", "h1"⟩] = Except.error "gene fetch failed" ∧
    run_full_pipeline_csv
        (fun _ => Except.ok "AASEQ       3\n            MKV\nNTSEQ       9\n            atg")
        "both" [⟨"aaa", "g1;g2"⟩, ⟨"bbb", "h1"⟩] =
      Except.ok ["g1_amino.fasta", "g1_gene.fasta", "g2_amino.fasta",
        "g2_gene.fasta", "h1_amino.fasta", "h1_gene.fasta"] :=
  ⟨rfl, rfl⟩

/-! ## Claim C6: the sequence extractor -/

/-- With no line starting with the key, the capture loop started uncaptured
collects nothing. -/
theorem lem_extractLoop_none (key : String) :
    ∀ ls, (∀ l ∈ ls, pyStartsWith l key = false) → extractLoop key ls false = [] := by
  intro ls h
  induction ls with
  | nil => rfl
  | cons l rest ih =>
    have hl : pyStartsWith l key = false := h l (by simp)
    simp only [extractLoop, hl]
    exact ih fun x hx => h x (by simp [hx])

/-- Counterexample for C6: an entry whose AASEQ keyword line is present but
whose continuation block is empty makes extract_sequence return none rather
than raise an error. -/
theorem C6_counterexample :
    (∃ l ∈ splitLines "AASEQ       243\nNTSEQ       730", pyStartsWith l "AASEQ" = true) ∧
    extract_sequence "AASEQ       243\nNTSEQ       730" "AASEQ" = Except.ok none :=
  ⟨by decide, rfl⟩

/-- Claim C6 (amended): for a valid key, extract_sequence never raises — it
returns some result — and returns none when the keyword is absent; by the
counterexample it also returns none, rather than raising, when the keyword is
present with an empty continuation block. -/
theorem C6_extract_sequence_amended (t key : String)
    (hk : key = "AASEQ" ∨ key = "NTSEQ") :
    (∃ o, extract_sequence t key = Except.ok o) ∧
    ((∀ l ∈ splitLines t, pyStartsWith l key = false) →
      extract_sequence t key = Except.ok none) := by
  have hcond : (!(key == "AASEQ" || key == "NTSEQ")) = false := by
    rcases hk with h | h <;> subst h <;> decide
  constructor
  · unfold extract_sequence
    rw [hcond]
    simp only [Bool.false_eq_true, if_false]
    split
    · exact ⟨none, rfl⟩
    · exact ⟨_, rfl⟩
  · intro habs
    have hnil : extractLoop key (splitLines t) false = [] := lem_extractLoop_none _ _ habs
    unfold extract_sequence
    rw [hcond]
    simp [hnil]

/-- Witness for C6 at a concrete entry without the keyword. -/
theorem C6_witness :
    (∃ o, extract_sequence "ORTHOLOGY   K00001" "AASEQ" = Except.ok o) ∧
    extract_sequence "ORTHOLOGY   K00001" "AASEQ" = Except.ok none := by
  have h := C6_extract_sequence_amended "ORTHOLOGY   K00001" "AASEQ" (Or.inl rfl)
  exact ⟨h.1, h.2 (by decide)⟩

/-! ## Claim C4: direct species-code match -/

/-- Counterexample for C4: an input exactly equal (case-insensitively) to a
cached four-letter species code still falls through to the fuzzy step,
because the direct branch additionally requires the input to have length
three. -/
theorem C4_counterexample :
    (∃ r ∈ [(⟨"1", "dosa", "oryza sativa japonica", ""⟩ : SpeciesRecord)],
        pyLower (pyTrim "dosa") = pyLower r.speciesId) ∧
    map_species_from_single_input_step
      [⟨"1", "dosa", "oryza sativa japonica", ""⟩] "dosa" = ResolveStep.fuzzy :=
  ⟨by decide, rfl⟩

/-- Claim C4 (amended): when the stripped, lowered input has length three and
equals some cached species code (case-insensitively), the resolver takes the
direct branch, returning a record with that code, without the fuzzy step. -/
theorem C4_direct_match_amended (df : List SpeciesRecord) (input : String)
    (h3 : pyLen (pyLower (pyTrim input)) = 3)
    (hmem : ∃ r ∈ df, pyLower (pyTrim input) = pyLower r.speciesId) :
    ∃ r ∈ df, map_species_from_single_input_step df input = ResolveStep.direct r ∧
      pyLower r.speciesId = pyLower (pyTrim input) := by
  obtain ⟨r0, hr0, he0⟩ := hmem
  have hc : (List.map (fun r => pyLower r.speciesId) df).contains (pyLower (pyTrim input)) = true := by
    have hm : pyLower (pyTrim input) ∈ List.map (fun r => pyLower r.speciesId) df :=
      List.mem_map.mpr ⟨r0, hr0, he0.symm⟩
    simpa [List.contains] using List.elem_eq_true_of_mem hm
  have hfind : (df.find? (fun r => pyLower (pyTrim input) == pyLower r.speciesId)).isSome := by
    rw [List.find?_isSome]
    exact ⟨r0, hr0, by simp [he0]⟩
  obtain ⟨r, hfr⟩ := Option.isSome_iff_exists.mp hfind
  have hpr := List.find?_some hfr
  simp only [beq_iff_eq] at hpr
  refine ⟨r, List.mem_of_find?_eq_some hfr, ?_, hpr.symm⟩
  have hcond : (pyLen (pyLower (pyTrim input)) == 3
      && (List.map (fun r => pyLower r.speciesId) df).contains (pyLower (pyTrim input))) = true := by
    rw [Bool.and_eq_true]
    exact ⟨by simp [h3], hc⟩
  unfold map_species_from_single_input_step
  rw [if_pos hcond, hfr]

/-- Witness for C4 at a concrete cache and input (exercising both the strip
and the case folding). -/
theorem C4_witness :
    ∃ r ∈ [(⟨"9606", "hsa", "homo sapiens", "human"⟩ : SpeciesRecord)],
      map_species_from_single_input_step
        [⟨"9606", "hsa", "homo sapiens", "human"⟩] " HSA " = ResolveStep.direct r ∧
      pyLower r.speciesId = pyLower (pyTrim " HSA ") :=
  C4_direct_match_amended _ _ (by decide)
    ⟨⟨"9606", "hsa", "homo sapiens", "human"⟩, by simp, by decide⟩

/-! ## Claim C7: the KO entry fetcher -/

/-- Claim C7: an identifier not beginning with K is rejected with the
ValueError before any network request (the outcome is independent of the
network); for a well-formed identifier, the fetch raises a ValueError exactly
when the status is not 200, the stripped body is empty or error-marked, or
the body lacks the ENTRY marker — the same exception kind in all three
cases. -/
theorem C7_fetch_kegg_orthology (koId : String) (r : HttpResponse) :
    ((koId = "" ∨ pyStartsWith koId "K" = false) →
      ∀ net, fetch_kegg_orthology koId net =
        (false, Except.error (PyError.valueError "KO ID must start with K"))) ∧
    (koId ≠ "" → pyStartsWith koId "K" = true →
      (fetch_kegg_orthology koId (some r)).1 = true ∧
      ((∃ m, (fetch_kegg_orthology koId (some r)).2 = Except.error (PyError.valueError m)) ↔
        (r.statusCode ≠ 200 ∨ pyTrim r.text = "" ∨
         strContains (pyLower (pyTrim r.text)) "not found" = true ∨
         strContains (pyLower (pyTrim r.text)) "<error>" = true ∨
         strContains (pyTrim r.text) "ENTRY" = false))) := by
  constructor
  · intro h net
    have hcond : (decide (koId = "") || !(pyStartsWith koId "K")) = true := by
      rcases h with h | h <;> simp [h]
    unfold fetch_kegg_orthology
    rw [if_pos hcond]
  · intro hne hK
    by_cases h1 : r.statusCode = 200
    · by_cases h2 : pyTrim r.text = ""
      · simp [fetch_kegg_orthology, hne, hK, h1, h2]
      · by_cases h3 : strContains (pyLower (pyTrim r.text)) "not found" = true
        · simp [fetch_kegg_orthology, hne, hK, h1, h2, h3]
        · by_cases h4 : strContains (pyLower (pyTrim r.text)) "<error>" = true
          · simp [fetch_kegg_orthology, hne, hK, h1, h2, h3, h4]
          · by_cases h5 : strContains (pyTrim r.text) "ENTRY" = true
            · simp [fetch_kegg_orthology, hne, hK, h1, h2, h3, h4, h5]
            · simp [fetch_kegg_orthology, hne, hK, h1, h2, h3, h4, h5]
    · simp [fetch_kegg_orthology, hne, hK, h1]

/-- Witness for C7: a gene-style identifier is rejected without a request,
and a 404 response for a well-formed identifier raises the ValueError. -/
theorem C7_witness :
    fetch_kegg_orthology "hsa:1234" none =
      (false, Except.error (PyError.valueError "KO ID must start with K")) ∧
    (fetch_kegg_orthology "K09252" (some ⟨404, "ENTRY  K09252"⟩)).1 = true ∧
    (∃ m, (fetch_kegg_orthology "K09252" (some ⟨404, "ENTRY  K09252"⟩)).2 =
      Except.error (PyError.valueError m)) := by
  have h1 := (C7_fetch_kegg_orthology "hsa:1234" ⟨404, "ENTRY  K09252"⟩).1 (Or.inr (by decide)) none
  have h2 := (C7_fetch_kegg_orthology "K09252" ⟨404, "ENTRY  K09252"⟩).2 (by decide) (by decide)
  exact ⟨h1, h2.1, h2.2.mpr (Or.inl (by decide))⟩

/-! ## Claim C2: the gene table -/

/-- The rows accumulated over the kept lines are exactly one row per kept
line containing a colon, in order. -/
theorem lem_flatMap_processGeneLine (ls : List String) :
    ls.flatMap processGeneLine =
      (ls.filter (fun l => containsChar l ':')).map geneRowOf := by
  induction ls with
  | nil => rfl
  | cons l rest ih =>
    by_cases h : containsChar l ':' = true
    · simp [processGeneLine, h, ih, List.filter_cons]
    · simp [processGeneLine, h, ih, List.filter_cons]

/-- Counterexample for C2: a GENES block line with nothing after its colon
produces a row with an empty gene list, and a repeated species code produces
duplicate rows. -/
theorem C2_counterexample :
    parse_gene_table "GENES       HSA:\n            HSA:" =
      Except.ok [⟨"HSA", "", 0⟩, ⟨"HSA", "", 0⟩] ∧
    (∃ row ∈ ([⟨"HSA", "", 0⟩, ⟨"HSA", "", 0⟩] : List GeneRow), row.numGenes = 0) ∧
    ¬ (([⟨"HSA", "", 0⟩, ⟨"HSA", "", 0⟩] : List GeneRow).map GeneRow.speciesId).Nodup :=
  ⟨rfl, by decide, by decide⟩

/-- Claim C2 (amended): for a KO entry whose kept GENES-block lines each list
at least one gene token after their colon and carry pairwise distinct species
codes, every row of the returned table has a non-empty gene list and the
species codes of the rows are unique. -/
theorem C2_parse_gene_table_amended (entry : String) (rows : List GeneRow)
    (hok : parse_gene_table entry = Except.ok rows)
    (h1 : ∀ l ∈ acceptedGeneLines (splitLines entry) false,
      containsChar l ':' = true → pySplitWs (genesPartOf l) ≠ [])
    (h2 : (((acceptedGeneLines (splitLines entry) false).filter
        (fun l => containsChar l ':')).map speciesOf).Nodup) :
    (∀ row ∈ rows, 0 < row.numGenes) ∧ (rows.map GeneRow.speciesId).Nodup := by
  have hrows : rows = ((acceptedGeneLines (splitLines entry) false).filter
      (fun l => containsChar l ':')).map geneRowOf := by
    unfold parse_gene_table at hok
    rw [lem_flatMap_processGeneLine] at hok
    simp only [] at hok
    split at hok
    · cases hok
    · exact (Except.ok.injEq _ _).mp hok.symm
  subst hrows
  constructor
  · intro row hrow
    obtain ⟨l, hl, hEq⟩ := List.mem_map.mp hrow
    have hlf := List.mem_filter.mp hl
    have hcol : containsChar l ':' = true := by simpa using hlf.2
    have hne := h1 l hlf.1 hcol
    rw [← hEq]
    simpa [geneRowOf] using List.length_pos.mpr hne
  · rw [List.map_map]
    have hco : GeneRow.speciesId ∘ geneRowOf = speciesOf := by
      funext l
      rfl
    rw [hco]
    exact h2

/-- Witness for C2 at a concrete two-species KO entry. -/
theorem C2_witness :
    (∀ row ∈ ([⟨"HSA", "5290 5291", 2⟩, ⟨"PTR", "744", 1⟩] : List GeneRow),
      0 < row.numGenes) ∧
    (([⟨"HSA", "5290 5291", 2⟩, ⟨"PTR", "744", 1⟩] : List GeneRow).map
      GeneRow.speciesId).Nodup :=
  C2_parse_gene_table_amended "GENES       HSA: 5290 5291\n            PTR: 744" _
    rfl (by decide) (by decide)

/-! ## Claim C9: RID and RTOE extraction at submission -/

/-- One step of the rid fold. -/
theorem lem_ridScan_cons (a : String) (rest : List String) (r0 : Option String) :
    ridScan (a :: rest) r0 =
      ridScan rest (if strContains a "RID =" then some (extractEq a) else r0) := rfl

/-- Without RTOE lines the scanning loop cannot fail and leaves the default
rtoe untouched, computing only the rid fold. -/
theorem lem_scan_no_rtoe : ∀ (ls : List String) (r0 : Option String) (t : Int),
    (∀ l ∈ ls, strContains l "RTOE =" = false) →
    scanRidRtoe ls r0 t = Except.ok (ridScan ls r0, t) := by
  intro ls
  induction ls with
  | nil => intro r0 t _; rfl
  | cons l rest ih =>
    intro r0 t h
    have hl : strContains l "RTOE =" = false := h l (by simp)
    rw [lem_ridScan_cons]
    simp only [scanRidRtoe, hl, Bool.false_eq_true, if_false]
    exact ih _ t fun x hx => h x (by simp [hx])

/-- The rid fold is the identity over lines without the RID marker. -/
theorem lem_ridScan_none : ∀ (ls : List String) (r0 : Option String),
    (∀ l ∈ ls, strContains l "RID =" = false) → ridScan ls r0 = r0 := by
  intro ls
  induction ls with
  | nil => intro r0 _; rfl
  | cons l rest ih =>
    intro r0 h
    have hl : strContains l "RID =" = false := h l (by simp)
    rw [lem_ridScan_cons, if_neg (by simp [hl])]
    exact ih r0 fun x hx => h x (by simp [hx])

/-- When some line carries the RID marker, the rid fold returns the
extraction of the last such line, whatever the initial value. -/
theorem lem_ridScan_last : ∀ ls : List String,
    (∃ l ∈ ls, strContains l "RID =" = true) →
    ∃ l ∈ ls, strContains l "RID =" = true ∧
      ∀ r0, ridScan ls r0 = some (extractEq l) := by
  intro ls
  induction ls with
  | nil =>
    rintro ⟨l, hl, _⟩
    simp at hl
  | cons a rest ih =>
    intro hex
    by_cases ha : strContains a "RID =" = true
    · by_cases hrest : ∃ l ∈ rest, strContains l "RID =" = true
      · obtain ⟨l, hl, hm, hs⟩ := ih hrest
        refine ⟨l, by simp [hl], hm, fun r0 => ?_⟩
        rw [lem_ridScan_cons]
        exact hs _
      · refine ⟨a, by simp, ha, fun r0 => ?_⟩
        rw [lem_ridScan_cons, if_pos ha]
        refine lem_ridScan_none rest _ fun x hx => ?_
        by_contra hc
        exact hrest ⟨x, hx, by simpa using hc⟩
    · have hrest : ∃ l ∈ rest, strContains l "RID =" = true := by
        obtain ⟨l, hl, hP⟩ := hex
        rcases List.mem_cons.mp hl with rfl | hmem
        · exact absurd hP ha
        · exact ⟨l, hmem, hP⟩
      obtain ⟨l, hl, hm, hs⟩ := ih hrest
      refine ⟨l, by simp [hl], hm, fun r0 => ?_⟩
      rw [lem_ridScan_cons, if_neg ha]
      exact hs _

/-- Without RID lines the scanning loop either raises while parsing an RTOE
integer or ends with no rid. -/
theorem lem_scan_rid_none : ∀ ls : List String,
    (∀ l ∈ ls, strContains l "RID =" = false) →
    ∀ t : Int, (∃ e, scanRidRtoe ls none t = Except.error e) ∨
      (∃ t2, scanRidRtoe ls none t = Except.ok (none, t2)) := by
  intro ls
  induction ls with
  | nil => intro _ t; exact Or.inr ⟨t, rfl⟩
  | cons l rest ih =>
    intro h t
    have hl : strContains l "RID =" = false := h l (by simp)
    have hrest : ∀ x ∈ rest, strContains x "RID =" = false :=
      fun x hx => h x (by simp [hx])
    by_cases hr : strContains l "RTOE =" = true
    · cases hp : parseIntStr (extractEq l) with
      | none =>
        exact Or.inl ⟨"invalid RTOE integer", by simp [scanRidRtoe, hl, hr, hp]⟩
      | some v =>
        rcases ih hrest v with ⟨e, he⟩ | ⟨t2, h2⟩
        · exact Or.inl ⟨e, by simp [scanRidRtoe, hl, hr, hp, he]⟩
        · exact Or.inr ⟨t2, by simp [scanRidRtoe, hl, hr, hp, h2]⟩
    · rcases ih hrest t with ⟨e, he⟩ | ⟨t2, h2⟩
      · exact Or.inl ⟨e, by simp [scanRidRtoe, hl, hr, he]⟩
      · exact Or.inr ⟨t2, by simp [scanRidRtoe, hl, hr, h2]⟩

/-- Counterexample for C9: a body consisting of the single line RID = does
contain an RID marker line and no RTOE line, yet instead of defaulting the
estimated time and sleeping 20 before the first poll, the client raises
(the extracted identifier is empty) and performs no poll at all. -/
theorem C9_counterexample :
    (∃ l ∈ splitLines "RID =", strContains l "RID =" = true) ∧
    (∀ l ∈ splitLines "RID =", strContains l "RTOE =" = false) ∧
    submissionOutcome "RID =" = Except.error "RID not found in response" ∧
    runJobClient "RID =" ["Status=READY"] =
      ⟨0, 0, [], 0, JobOutcome.submitFailed "RID not found in response"⟩ :=
  ⟨by decide, by decide, rfl, rfl⟩

/-- Claim C9 (amended): a submission body with an RID marker line whose
extracted identifier is non-empty and with no RTOE line keeps the default
estimated time 15, so the initial wait before the first poll is 15 + 5 = 20;
a body with no RID marker line makes the client signal an error without
performing any poll. -/
theorem C9_submission_amended (body1 body2 : String)
    (hrtoe : ∀ l ∈ splitLines body1, strContains l "RTOE =" = false)
    (hrid : ∃ l ∈ splitLines body1, strContains l "RID =" = true)
    (hne : ∀ l ∈ splitLines body1, strContains l "RID =" = true → extractEq l ≠ "")
    (hnorid : ∀ l ∈ splitLines body2, strContains l "RID =" = false) :
    (∃ rid, rid ≠ "" ∧ submissionOutcome body1 = Except.ok (rid, 20)) ∧
    (∃ e, submissionOutcome body2 = Except.error e ∧
      ∀ polls, runJobClient body2 polls = ⟨0, 0, [], 0, JobOutcome.submitFailed e⟩) := by
  constructor
  · obtain ⟨l, hl, hm, hs⟩ := lem_ridScan_last (splitLines body1) hrid
    have hscan := lem_scan_no_rtoe (splitLines body1) none 15 hrtoe
    rw [hs none] at hscan
    refine ⟨extractEq l, hne l hl hm, ?_⟩
    unfold submissionOutcome
    rw [hscan]
    dsimp only
    rw [if_neg (hne l hl hm)]
    norm_num
  · have hsub : ∃ e, submissionOutcome body2 = Except.error e := by
      rcases lem_scan_rid_none (splitLines body2) hnorid 15 with ⟨e, he⟩ | ⟨t2, h2⟩
      · exact ⟨e, by unfold submissionOutcome; rw [he]⟩
      · exact ⟨"RID not found in response", by unfold submissionOutcome; rw [h2]⟩
    obtain ⟨e, he⟩ := hsub
    exact ⟨e, he, fun polls => by simp [runJobClient, he]⟩

/-- Witness for C9 at a concrete RTOE-less submission body and a concrete
RID-less body. -/
theorem C9_witness :
    (∃ rid, rid ≠ "" ∧
      submissionOutcome "RID = JX4YTR\nplease wait" = Except.ok (rid, 20)) ∧
    (∃ e, submissionOutcome "status page" = Except.error e ∧
      ∀ polls, runJobClient "status page" polls =
        ⟨0, 0, [], 0, JobOutcome.submitFailed e⟩) :=
  C9_submission_amended "RID = JX4YTR\nplease wait" "status page"
    (by decide) (by decide) (by decide) (by decide)

/-! ## Claim C10: the free-text hit parser -/

/-- The update of the current dictionary by the last Score = line of a group,
if any. -/
def scoreUpdate (cur : BlastHitR) (o : Option String) : BlastHitR :=
  match o with
  | none => cur
  | some l => ⟨cur.subject_title, some (scoreData l).1, some (scoreData l).2⟩

/-- Over a run of non-header lines, the parser loop only folds the score
update into the current dictionary. -/
theorem lem_pnLoop_body : ∀ (body rest : List String) (cur : BlastHitR),
    (∀ l ∈ body, pyStartsWith l ">" = false) →
    pnLoop (body ++ rest) cur = pnLoop rest (applyScores cur body) := by
  intro body
  induction body with
  | nil => intro rest cur _; rfl
  | cons l body2 ih =>
    intro rest cur h
    have hl : pyStartsWith l ">" = false := h l (by simp)
    have hrest : ∀ x ∈ body2, pyStartsWith x ">" = false :=
      fun x hx => h x (by simp [hx])
    by_cases hsc : strContains l "Score =" = true
    · simp only [List.cons_append, pnLoop, hl, Bool.false_eq_true, if_false, hsc, if_true,
        applyScores, List.foldl_cons]
      exact ih rest _ hrest
    · have hsc2 : strContains l "Score =" = false := by simpa using hsc
      simp only [List.cons_append, pnLoop, hl, Bool.false_eq_true, if_false, hsc2,
        applyScores, List.foldl_cons]
      exact ih rest _ hrest

/-- The score fold equals the update by the last Score = line of the group. -/
theorem lem_applyScores_last : ∀ (body : List String) (cur : BlastHitR),
    applyScores cur body = scoreUpdate cur (lastScore body) := by
  intro body
  induction body with
  | nil => intro cur; rfl
  | cons a body2 ih =>
    intro cur
    by_cases ha : strContains a "Score =" = true
    · have hstep : applyScores cur (a :: body2) =
          applyScores ⟨cur.subject_title, some (scoreData a).1, some (scoreData a).2⟩ body2 := by
        simp [applyScores, ha]
      have hsl : scoreLines (a :: body2) = a :: scoreLines body2 := by
        simp [scoreLines, List.filter_cons, ha]
      rw [hstep, ih]
      cases hsc : scoreLines body2 with
      | nil =>
        have h2 : lastScore body2 = none := by rw [lastScore, hsc]; rfl
        have h3 : lastScore (a :: body2) = some a := by
          rw [lastScore, hsl, hsc]
          rfl
        rw [h2, h3]
        rfl
      | cons x xs =>
        have h2 : lastScore body2 = (x :: xs).getLast? := by rw [lastScore, hsc]
        have h3 : lastScore (a :: body2) = (x :: xs).getLast? := by
          rw [lastScore, hsl, hsc, List.getLast?_cons_cons]
        rw [h2, h3]
        cases hls : (x :: xs).getLast? with
        | none => simp at hls
        | some l2 => rfl
    · have ha2 : strContains a "Score =" = false := by simpa using ha
      have hstep : applyScores cur (a :: body2) = applyScores cur body2 := by
        simp [applyScores, ha2]
      have h3 : lastScore (a :: body2) = lastScore body2 := by
        rw [lastScore, lastScore, scoreLines, scoreLines, List.filter_cons]
        simp [ha2]
      rw [hstep, ih, h3]

/-- A group record always carries a title, hence is never the empty
dictionary. -/
theorem lem_groupHit_nonempty (h : String) (body : List String) :
    hitEmptyB (groupHit h body) = false := by
  unfold groupHit
  cases lastScore body <;> rfl

/-- The score update of a fresh header dictionary is the group record. -/
theorem lem_scoreUpdate_groupHit (h : String) (body : List String) :
    scoreUpdate ⟨some (pyTrim (pyDrop h 1)), none, none⟩ (lastScore body) =
      groupHit h body := by
  unfold scoreUpdate groupHit
  cases lastScore body <;> rfl

/-- The parser loop over a concatenation of header groups: the incoming
dictionary is flushed when non-empty, then one record per group. -/
theorem lem_pnLoop_groups : ∀ (groups : List (String × List String)) (cur : BlastHitR),
    (∀ g ∈ groups, pyStartsWith g.1 ">" = true) →
    (∀ g ∈ groups, ∀ l ∈ g.2, pyStartsWith l ">" = false) →
    pnLoop (groups.flatMap (fun g => g.1 :: g.2)) cur =
      (if hitEmptyB cur then [] else [cur]) ++
        groups.map (fun g => groupHit g.1 g.2) := by
  intro groups
  induction groups with
  | nil =>
    intro cur _ _
    simp [pnLoop]
  | cons g gs ih =>
    intro cur hh hb
    have hg : pyStartsWith g.1 ">" = true := hh g (by simp)
    have hgb : ∀ l ∈ g.2, pyStartsWith l ">" = false := hb g (by simp)
    have hflat : (g :: gs).flatMap (fun g => g.1 :: g.2) =
        g.1 :: (g.2 ++ gs.flatMap (fun g => g.1 :: g.2)) := by
      simp
    rw [hflat]
    have hstep : pnLoop (g.1 :: (g.2 ++ gs.flatMap (fun g => g.1 :: g.2))) cur =
        (if hitEmptyB cur then [] else [cur]) ++
          pnLoop (g.2 ++ gs.flatMap (fun g => g.1 :: g.2))
            ⟨some (pyTrim (pyDrop g.1 1)), none, none⟩ := by
      simp [pnLoop, hg]
    rw [hstep, lem_pnLoop_body _ _ _ hgb, lem_applyScores_last,
      lem_scoreUpdate_groupHit]
    rw [ih (groupHit g.1 g.2) (fun x hx => hh x (by simp [hx]))
      (fun x hx => hb x (by simp [hx]))]
    rw [lem_groupHit_nonempty]
    simp

/-- The flush of the dictionary accumulated over the lines before the first
header is the leading record of the claim. -/
theorem lem_lead_flush (pre : List String) :
    (if hitEmptyB (scoreUpdate emptyHit (lastScore pre)) then []
      else [scoreUpdate emptyHit (lastScore pre)]) = leadHits pre := by
  unfold leadHits
  cases lastScore pre <;> rfl

/-- The splitter produces one more field than the number of separator
characters. -/
theorem lem_splitPred_length (p : Char → Bool) :
    ∀ l : List Char, (splitPred p l).length = l.countP p + 1 := by
  intro l
  induction l with
  | nil => rfl
  | cons c rest ih =>
    by_cases hc : p c = true
    · simp [splitPred, hc, ih, List.countP_cons]
    · have hc2 : p c = false := by simpa using hc
      cases hsp : splitPred p rest with
      | nil =>
        have := ih
        rw [hsp] at this
        simp at this
      | cons h t =>
        have := ih
        rw [hsp] at this
        simp only [List.length_cons] at this
        simp [splitPred, hc2, hsp, List.countP_cons, ← this]

/-- Containment of a one-character pattern is membership. -/
theorem lem_containsSeq_single (c : Char) :
    ∀ m : List Char, containsSeq [c] m = m.contains c := by
  intro m
  induction m with
  | nil => rfl
  | cons a m2 ih =>
    simp only [containsSeq, List.isPrefixOf, List.contains_cons, ih, Bool.and_true]

/-- A list not containing a character has no occurrence counted for it. -/
theorem lem_contains_false_countP (c : Char) : ∀ m : List Char,
    m.contains c = false → m.countP (fun a => a == c) = 0 := by
  intro m
  induction m with
  | nil => intro _; rfl
  | cons a m2 ih =>
    intro h
    rw [List.contains_cons] at h
    simp only [Bool.or_eq_false_iff] at h
    have h1 : (a == c) = false := by
      have hca := h.1
      cases hb : (a == c)
      · rfl
      · rw [show a = c from by simpa using hb] at hca
        simp at hca
    rw [List.countP_cons, h1, ih h.2]
    rfl

/-- A Score = line without a comma yields the Python None evalue. -/
theorem lem_scoreData_no_comma (line : String)
    (h : strContains line "," = false) : (scoreData line).2 = none := by
  have h2 : containsSeq [','] (pyChars line) = false := h
  have hmem : ((pyChars line).contains ',') = false := by
    rw [← lem_containsSeq_single]
    exact h2
  have hcount := lem_contains_false_countP ',' (pyChars line) hmem
  have hlen : (pySplitChar line ',').length = 1 := by
    simp [pySplitChar, lem_splitPred_length, hcount]
  simp [scoreData, hlen]

/-- Claim C10: the free-text parser returns one record per header line plus a
leading title-less record exactly when a Score = line precedes the first
header; within each group the score fields come from the last Score = line,
and the evalue of a Score = line without a comma is the Python None. -/
theorem C10_parse_ncbi_blast_text (text : String) (pre : List String)
    (groups : List (String × List String))
    (hsplit : splitLines text = pre ++ groups.flatMap (fun g => g.1 :: g.2))
    (hpre : ∀ l ∈ pre, pyStartsWith l ">" = false)
    (hgh : ∀ g ∈ groups, pyStartsWith g.1 ">" = true)
    (hgb : ∀ g ∈ groups, ∀ l ∈ g.2, pyStartsWith l ">" = false) :
    parse_ncbi_blast_text text =
      leadHits pre ++ groups.map (fun g => groupHit g.1 g.2) ∧
    ∀ line, strContains line "," = false → (scoreData line).2 = none := by
  refine ⟨?_, fun line h => lem_scoreData_no_comma line h⟩
  unfold parse_ncbi_blast_text
  rw [hsplit, lem_pnLoop_body _ _ _ hpre, lem_applyScores_last,
    lem_pnLoop_groups _ _ hgh hgb, lem_lead_flush]

/-- Witness for C10 at a concrete alignment text with a leading Score = line,
a first group holding two Score = lines (the last of which has no comma), and
a score-less second group. -/
theorem C10_witness :
    parse_ncbi_blast_text
        "Score = 5\n>h1\n Score = 100, Expect = 1e-5\n Score = 200\n>h2" =
      leadHits ["Score = 5"] ++
        ([(">h1", [" Score = 100, Expect = 1e-5", " Score = 200"]),
          (">h2", ([] : List String))].map (fun g => groupHit g.1 g.2)) ∧
    ∀ line, strContains line "," = false → (scoreData line).2 = none :=
  C10_parse_ncbi_blast_text
    "Score = 5\n>h1\n Score = 100, Expect = 1e-5\n Score = 200\n>h2"
    ["Score = 5"]
    [(">h1", [" Score = 100, Expect = 1e-5", " Score = 200"]), (">h2", [])]
    (by decide) (by decide) (by decide) (by decide)

/-! ## Claim C8: the FASTA round trip -/

/-- Splitting a concatenation at a separator not occurring in the first
part. -/
theorem lem_splitPred_append (p : Char → Bool) (sep : Char) (hsep : p sep = true) :
    ∀ (a b : List Char), (∀ x ∈ a, p x = false) →
    splitPred p (a ++ sep :: b) = a :: splitPred p b := by
  intro a
  induction a with
  | nil =>
    intro b _
    simp [splitPred, hsep]
  | cons x a2 ih =>
    intro b h
    have hx : p x = false := h x (by simp)
    have hrec := ih b fun y hy => h y (by simp [hy])
    simp only [List.cons_append, splitPred, hx, Bool.false_eq_true, if_false]
    rw [List.append_eq, hrec]

/-- Joining the chunks restores the sequence (given enough fuel). -/
theorem lem_chunkFuel_join : ∀ (n : Nat) (l : List Char), l.length ≤ n →
    (chunkFuel n l).flatten = l := by
  intro n
  induction n with
  | zero =>
    intro l hl
    have : l = [] := List.eq_nil_of_length_eq_zero (Nat.le_zero.mp hl)
    subst this
    rfl
  | succ n ih =>
    intro l hl
    cases l with
    | nil => rfl
    | cons c l2 =>
      have hd : ((c :: l2).drop 70).length ≤ n := by
        rw [List.length_drop]
        simp only [List.length_cons] at hl ⊢
        omega
      simp only [chunkFuel, List.flatten_cons, ih _ hd, List.take_append_drop]

/-- Chunks are never empty. -/
theorem lem_chunkFuel_ne_nil : ∀ (n : Nat) (l : List Char),
    ∀ ch ∈ chunkFuel n l, ch ≠ [] := by
  intro n
  induction n with
  | zero =>
    intro l ch hch
    simp [chunkFuel] at hch
  | succ n ih =>
    intro l ch hch
    cases l with
    | nil => simp [chunkFuel] at hch
    | cons c l2 =>
      simp only [chunkFuel, List.mem_cons] at hch
      rcases hch with rfl | hch
      · simp
      · exact ih _ ch hch

/-- Chunk characters come from the sequence. -/
theorem lem_chunkFuel_subset : ∀ (n : Nat) (l : List Char),
    ∀ ch ∈ chunkFuel n l, ∀ x ∈ ch, x ∈ l := by
  intro n
  induction n with
  | zero =>
    intro l ch hch
    simp [chunkFuel] at hch
  | succ n ih =>
    intro l ch hch x hx
    cases l with
    | nil => simp [chunkFuel] at hch
    | cons c l2 =>
      simp only [chunkFuel, List.mem_cons] at hch
      rcases hch with rfl | hch
      · exact List.take_subset _ _ hx
      · exact List.drop_subset 70 (c :: l2) (ih _ ch hch x hx)

/-- Dropping leading whitespace does nothing when no character is
whitespace. -/
theorem lem_dropWhile_id (m : List Char) (h : ∀ x ∈ m, isPyWs x = false) :
    m.dropWhile isPyWs = m := by
  cases m with
  | nil => rfl
  | cons c m2 =>
    have : isPyWs c = false := h c (by simp)
    simp [List.dropWhile_cons, this]

/-- Stripping does nothing when no character is whitespace. -/
theorem lem_pyStripL_id (l : List Char) (h : ∀ x ∈ l, isPyWs x = false) :
    pyStripL l = l := by
  unfold pyStripL lstripL rstripL
  rw [lem_dropWhile_id l h, lem_dropWhile_id l.reverse
    (fun x hx => h x (List.mem_reverse.mp hx)), List.reverse_reverse]

/-- A pointwise identity filterMap is the identity. -/
theorem lem_filterMap_id (f : List Char → Option (List Char)) :
    ∀ l : List (List Char), (∀ x ∈ l, f x = some x) → l.filterMap f = l := by
  intro l
  induction l with
  | nil => intro _; rfl
  | cons a l2 ih =>
    intro h
    rw [List.filterMap_cons_some (h a (by simp)), ih fun x hx => h x (by simp [hx])]

/-- Splitting the wrapped body on newlines recovers the chunks plus a final
empty line. -/
theorem lem_body_split : ∀ chunks : List (List Char),
    (∀ ch ∈ chunks, ∀ x ∈ ch, ((x == '\n') : Bool) = false) →
    splitLinesL (List.flatten (chunks.map (fun c => c ++ ['\n']))) = chunks ++ [[]] := by
  intro chunks
  induction chunks with
  | nil => intro _; rfl
  | cons ch rest ih =>
    intro h
    have hch : ∀ x ∈ ch, ((x == '\n') : Bool) = false := h ch (by simp)
    have hassoc : (ch ++ ['\n']) ++ List.flatten (rest.map (fun c => c ++ ['\n'])) =
        ch ++ '\n' :: List.flatten (rest.map (fun c => c ++ ['\n'])) := by
      simp
    simp only [List.map_cons, List.flatten_cons]
    rw [hassoc]
    unfold splitLinesL
    rw [lem_splitPred_append _ '\n' (by decide) ch _ hch]
    have := ih fun x hx => h x (by simp [hx])
    unfold splitLinesL at this
    rw [this]
    simp

/-- Counterexample for C8: the non-empty sequence consisting of the single
header-marker character is written successfully but reads back empty, because
its wrapped line begins with the header marker and is skipped. -/
theorem C8_counterexample :
    ∃ content, write_fasta_file ['h'] ['>'] = Except.ok content ∧
      read_fasta_sequence content ≠ ['>'] :=
  ⟨writeFastaContent ['h'] ['>'], rfl, by decide⟩

/-- Claim C8 (amended): for every non-empty header without newlines and every
non-empty sequence containing neither whitespace characters nor the header
marker, writing the FASTA file and re-reading it while skipping header lines
reproduces the sequence exactly, regardless of the 70-character wrapping. -/
theorem C8_fasta_roundtrip_amended (header sequence : List Char)
    (hh : header ≠ []) (hh2 : '\n' ∉ header) (hs : sequence ≠ [])
    (hws : ∀ x ∈ sequence, isPyWs x = false)
    (hgt : ∀ x ∈ sequence, x ≠ '>') :
    ∃ content, write_fasta_file header sequence = Except.ok content ∧
      read_fasta_sequence content = sequence := by
  refine ⟨writeFastaContent header sequence, ?_, ?_⟩
  · unfold write_fasta_file
    rw [if_neg hh, if_neg hs]
  · have hchunknl : ∀ ch ∈ wrap70 sequence, ∀ x ∈ ch, ((x == '\n') : Bool) = false := by
      intro ch hch x hx
      have hxs : x ∈ sequence := lem_chunkFuel_subset _ _ ch hch x hx
      have hxw := hws x hxs
      cases hb : ((x == '\n') : Bool)
      · rfl
      · exfalso
        have hx2 : x = '\n' := by simpa using hb
        rw [hx2] at hxw
        exact absurd hxw (by decide)
    have hsplit : splitLinesL (writeFastaContent header sequence) =
        ('>' :: header) :: (wrap70 sequence ++ [[]]) := by
      unfold writeFastaContent splitLinesL
      rw [lem_splitPred_append _ '\n' (by decide) ('>' :: header) _ ?hnl]
      case hnl =>
        intro x hx
        rcases List.mem_cons.mp hx with rfl | hmem
        · decide
        · have hne : x ≠ '\n' := fun hEq => hh2 (hEq ▸ hmem)
          simp [hne]
      have hb := lem_body_split (wrap70 sequence) hchunknl
      unfold splitLinesL at hb
      rw [hb]
    unfold read_fasta_sequence
    rw [hsplit]
    have hfhead : readKeep ('>' :: header) = none := rfl
    rw [List.filterMap_cons_none hfhead, List.filterMap_append]
    have hid : (wrap70 sequence).filterMap readKeep = wrap70 sequence := by
      refine lem_filterMap_id _ _ fun ch hch => ?_
      have hne := lem_chunkFuel_ne_nil _ _ ch hch
      cases ch with
      | nil => exact absurd rfl hne
      | cons y ch2 =>
        have hy : y ∈ sequence :=
          lem_chunkFuel_subset _ _ _ hch y (by simp)
        have hyne : ¬ ((y :: ch2).head? = some '>') := by
          simp only [List.head?_cons, Option.some.injEq]
          exact hgt y hy
        unfold readKeep
        rw [if_neg hyne, lem_pyStripL_id _
          (fun x hx => hws x (lem_chunkFuel_subset _ _ _ hch x hx))]
    rw [hid]
    have htail : ([([] : List Char)]).filterMap readKeep = [[]] := rfl
    rw [htail, List.flatten_append]
    simp [lem_chunkFuel_join sequence.length sequence (Nat.le_refl _), wrap70]

/-- Witness for C8 at a concrete header and sequence. -/
theorem C8_witness :
    ∃ content, write_fasta_file ['h'] ['A', 'B'] = Except.ok content ∧
      read_fasta_sequence content = ['A', 'B'] :=
  C8_fasta_roundtrip_amended ['h'] ['A', 'B'] (by decide) (by decide) (by decide)
    (by decide) (by decide)

end KeggBlast
